import Mathlib

/-!
Verification development for the United Hemispheres scraper.

The Python source is shallowly embedded: strings are `List Char`, Python
`str.lower` / `in` / `endswith` / `split` become the corresponding list
functions, Python dicts (which preserve insertion order and update keys in
place) become association lists with explicit insert/find functions, and the
Python `set` accumulator of `_load_all_articles` becomes a `Finset` together
with an explicit enumeration (Python set iteration order is unspecified, so
`list(set)` is modelled by quantifying over admissible enumerations).
-/

set_option maxRecDepth 4000

/-- Python strings are modelled as lists of characters. -/
abbrev PyStr := List Char

/-- Coerce a Lean string literal into the `PyStr` model. -/
def strL (s : String) : PyStr := s.data

/-- Model of Python `str.lower()` (ASCII case folding suffices for the URLs
this program handles). -/
def pyLower (s : PyStr) : PyStr := s.map Char.toLower

/-- Model of Python `str.split(sep)` for a one-character separator:
`"".split(sep) == [""]`, separators at the ends produce empty pieces. -/
def pySplit (sep : Char) : PyStr → List PyStr
  | [] => [[]]
  | c :: rest =>
    match pySplit sep rest with
    | [] => [[]]
    | s :: ss => if c = sep then [] :: s :: ss else (c :: s) :: ss

/-- Model of Python `sep.join(parts)` for the one-character separator `/`. -/
def pyJoinSlash : List PyStr → PyStr
  | [] => []
  | [s] => s
  | s :: rest => s ++ '/' :: pyJoinSlash rest

/-- A parsed URL as produced by CPython `urllib.parse.urlparse`: scheme,
netloc, path, query, fragment.  (The `params` component is always empty for
the URLs this program handles and is omitted.) -/
structure UrlRec where
  scheme : PyStr
  netloc : PyStr
  path : PyStr
  query : PyStr
  fragment : PyStr
deriving DecidableEq, Repr

/-- The empty URL record, the parse of the empty string. -/
def UrlRec.empty : UrlRec := ⟨[], [], [], [], []⟩

/-- CPython `urllib.parse.uses_relative`. -/
def usesRelative : List PyStr :=
  [strL "", strL "ftp", strL "http", strL "gopher", strL "nntp", strL "imap",
   strL "wais", strL "file", strL "https", strL "shttp", strL "mms",
   strL "prospero", strL "rtsp", strL "rtspu", strL "sftp", strL "svn",
   strL "svn+ssh", strL "ws", strL "wss"]

/-- CPython `urllib.parse.uses_netloc`. -/
def usesNetloc : List PyStr :=
  [strL "", strL "ftp", strL "http", strL "gopher", strL "nntp", strL "telnet",
   strL "imap", strL "wais", strL "file", strL "mms", strL "https", strL "shttp",
   strL "snews", strL "prospero", strL "rtsp", strL "rtspu", strL "rsync",
   strL "svn", strL "svn+ssh", strL "sftp", strL "nfs", strL "git",
   strL "git+ssh", strL "ws", strL "wss", strL "itms-services"]

/-- Helper of `filterMiddle`: filter empties but keep the final element. -/
def filterMiddleTail : List PyStr → List PyStr
  | [] => []
  | [b] => [b]
  | b :: rest => if b = [] then filterMiddleTail rest else b :: filterMiddleTail rest

/-- Drop empty segments from the middle of a segment list, keeping the first
and last elements: CPython `segments[1:-1] = filter(None, segments[1:-1])`. -/
def filterMiddle : List PyStr → List PyStr
  | [] => []
  | [a] => [a]
  | a :: rest => a :: filterMiddleTail rest

/-- Resolve `.` and `..` segments: the CPython `resolved_path` loop inside
`urljoin` (a `..` on an empty stack is ignored). -/
def resolveSegs (segs : List PyStr) : List PyStr :=
  segs.foldl
    (fun acc seg =>
      if seg = strL ".." then acc.dropLast
      else if seg = strL "." then acc
      else acc ++ [seg]) []

/-- Model of CPython `urllib.parse.urljoin` on parsed URLs (the source calls
`urljoin(base_url, href)` for every discovered href).  Mirrors the CPython
branch structure: empty inputs, foreign schemes, authority-carrying
references, empty-path references, and relative-path merging with dot-segment
resolution. -/
def urljoinRec (base r : UrlRec) : UrlRec :=
  if base = UrlRec.empty then r
  else if r = UrlRec.empty then base
  else
    let scheme := if r.scheme = [] then base.scheme else r.scheme
    if scheme ≠ base.scheme ∨ scheme ∉ usesRelative then
      { r with scheme := scheme }
    else if scheme ∈ usesNetloc ∧ r.netloc ≠ [] then
      ⟨scheme, r.netloc, r.path, r.query, r.fragment⟩
    else
      let netloc := if scheme ∈ usesNetloc then base.netloc else r.netloc
      if r.path = [] then
        ⟨scheme, netloc, base.path,
          if r.query = [] then base.query else r.query, r.fragment⟩
      else
        let baseParts := pySplit '/' base.path
        let baseParts :=
          if baseParts.getLastD [] ≠ [] then baseParts.dropLast else baseParts
        let segments :=
          if (strL "/") <+: r.path then pySplit '/' r.path
          else filterMiddle (baseParts ++ pySplit '/' r.path)
        let resolved := resolveSegs segments
        let resolved :=
          if segments.getLastD [] = strL "." ∨ segments.getLastD [] = strL ".." then
            resolved ++ [[]]
          else resolved
        let path := pyJoinSlash resolved
        let path := if path = [] then strL "/" else path
        ⟨scheme, netloc, path, r.query, r.fragment⟩

/-- The normalization applied to every discovered link
(`listing_crawler.py` line 213): keep scheme, netloc and path, discard query
and fragment. -/
def normalizeStr (u : UrlRec) : PyStr := u.scheme ++ strL "://" ++ u.netloc ++ u.path

/-- The scheme/netloc/path triple of a URL: two URLs with the same triple
name the same resource for the purposes of this program. -/
def snp (u : UrlRec) : PyStr × PyStr × PyStr := (u.scheme, u.netloc, u.path)

namespace ListingCrawler

/-- Model of `ListingCrawler._is_valid_article_url` (listing_crawler.py lines
221-253): the path (lowercased) must contain `/places-to-go/`, must not
contain `/things-to-do/`, must contain `/{place_slug}/` when a slug is given,
must not end in `/index.html` or `/index`, and must end in `.html`. -/
def _is_valid_article_url (url : UrlRec) (place_slug : Option PyStr) : Bool :=
  let path := pyLower url.path
  if ¬ (strL "/places-to-go/" <:+: path) then false
  else if strL "/things-to-do/" <:+: path then false
  else if (match place_slug with
           | some s => decide (¬ ((strL "/" ++ pyLower s ++ strL "/") <:+: path))
           | none => false) then false
  else if (strL "/index.html" <:+ path) ∨ (strL "/index" <:+ path) then false
  else if ¬ (strL ".html" <:+ path) then false
  else true

/-- Model of the normalize-and-dedup loop of
`ListingCrawler._extract_article_links` (lines 205-219): each href is
resolved against the page URL, normalized to scheme://netloc/path, and
appended only if not seen before. -/
def _extract_article_links (base : UrlRec) (hrefs : List UrlRec) : List PyStr :=
  hrefs.foldl
    (fun links h =>
      let normalized := normalizeStr (urljoinRec base h)
      if normalized ∈ links then links else links ++ [normalized])
    []

/-- The safety ceiling of the reveal loop (`max_attempts = 50`). -/
def max_attempts : Nat := 50

/-- How one run of the reveal loop ended: the source breaks out when no
reveal control is found, when a click reveals no new content, or when the
attempt ceiling is reached; all three return the accumulated URL set
normally (none raises). -/
inductive StopReason where
  | noButton
  | noNewContent
  | ceiling
deriving DecidableEq, Repr

/-- Result of the reveal loop: the accumulated URL set, the final value of
the `attempts` counter, and how the loop stopped. -/
structure LoopResult (α : Type) where
  urls : Finset α
  attempts : Nat
  stop : StopReason
deriving DecidableEq

/-- Model of the `while attempts < max_attempts` loop of
`_load_all_articles` (lines 144-169), with the page interaction abstracted
into simulated outcome sequences: `ext1 i` is the extraction at the top of
iteration `i`, `clk i` says whether the "See more" click succeeded, and
`ext2 i` is the re-extraction after the post-click delay.  `fuel` is
`max_attempts - attempts`; `i` is the current value of `attempts`. -/
def loadLoop {α : Type} [DecidableEq α] (ext1 : Nat → Finset α) (clk : Nat → Bool)
    (ext2 : Nat → Finset α) : Nat → Nat → Finset α → LoopResult α
  | 0, i, acc => ⟨acc, i, .ceiling⟩
  | fuel + 1, i, acc =>
    let previous_count := acc.card
    let acc := acc ∪ ext1 i
    if clk i = false then ⟨acc, i, .noButton⟩
    else if (ext2 i).card ≤ previous_count then ⟨acc, i, .noNewContent⟩
    else loadLoop ext1 clk ext2 fuel (i + 1) acc

/-- Model of `_load_all_articles` (lines 138-174): run the reveal loop from
an empty accumulator with `attempts = 0`. -/
def _load_all_articles {α : Type} [DecidableEq α] (ext1 : Nat → Finset α)
    (clk : Nat → Bool) (ext2 : Nat → Finset α) : LoopResult α :=
  loadLoop ext1 clk ext2 max_attempts 0 ∅

/-- The accumulator contents at the top of iteration `i`: the union of all
first-extraction results of earlier iterations. -/
def accUpTo {α : Type} [DecidableEq α] (ext1 : Nat → Finset α) : Nat → Finset α
  | 0 => ∅
  | i + 1 => accUpTo ext1 i ∪ ext1 i

/-- Status values of the `processed` map. -/
inductive PStatus where
  | pending
  | success
  | failed
deriving DecidableEq, Repr

/-- The `self.state` dictionary of `ListingCrawler` (lines 20-27).  The
`processed` dict is an insertion-ordered association list, as in Python. -/
structure ListingState where
  listing_url : PyStr
  total_found : Nat
  valid_urls : List UrlRec
  skipped_urls : List UrlRec
  processed : List (UrlRec × PStatus)
  remaining : List UrlRec
deriving DecidableEq, Repr

/-- The state created by `ListingCrawler.__init__`. -/
def init_state : ListingState := ⟨[], 0, [], [], [], []⟩

/-- Python dict assignment `d[k] = v`: update the value in place if the key
exists, otherwise append the pair. -/
def dictInsert (d : List (UrlRec × PStatus)) (k : UrlRec) (v : PStatus) :
    List (UrlRec × PStatus) :=
  match d with
  | [] => [(k, v)]
  | (k2, v2) :: rest => if k2 = k then (k, v) :: rest else (k2, v2) :: dictInsert rest k v

/-- Python dict lookup `d.get(k)`. -/
def dictFind (d : List (UrlRec × PStatus)) (k : UrlRec) : Option PStatus :=
  match d with
  | [] => none
  | (k2, v2) :: rest => if k2 = k then some v2 else dictFind rest k

/-- Model of `crawl_listing` (lines 85-136) after `_load_all_articles` has
produced `all_urls` (the enumeration of the accumulated set): partition into
valid and skipped, overwrite the state fields, and mark every valid URL
`pending` in the existing `processed` dict. -/
def crawl_listing (st : ListingState) (listing_url : PyStr) (all_urls : List UrlRec)
    (place_slug : Option PyStr) : ListingState :=
  let part := all_urls.partition (fun u => _is_valid_article_url u place_slug)
  { listing_url := listing_url
    total_found := all_urls.length
    valid_urls := part.1
    skipped_urls := part.2
    processed := part.1.foldl (fun d u => dictInsert d u PStatus.pending) st.processed
    remaining := part.1 }

/-- Model of `get_article_urls` (lines 29-83): crawl from the state of a fresh crawler and return the `valid_urls` field.  `all_urls` is the enumeration of
the discovered set handed over by `_load_all_articles`. -/
def get_article_urls (listing_url : PyStr) (all_urls : List UrlRec)
    (place_slug : Option PyStr) : List UrlRec :=
  (crawl_listing init_state listing_url all_urls place_slug).valid_urls

/-- An admissible value of Python `list(s)` for a set `s` that accumulated
the elements of `disc`: some duplicate-free listing of exactly those
elements (CPython set iteration order is unspecified and hash-seeded). -/
def pySetListing (enum disc : List UrlRec) : Prop :=
  enum.Nodup ∧ ∀ u, u ∈ enum ↔ u ∈ disc

end ListingCrawler

namespace HemispheresScraper

/-- Model of `HemispheresScraper._is_valid_article_url` (scraper.py lines
799-828): scheme must be http or https, the lowercased path must be neither
empty nor `/`, must not end in `/index.html` or `/index`, and must end in
`.html`. -/
def _is_valid_article_url (url : UrlRec) : Bool :=
  if ¬ (url.scheme = strL "http" ∨ url.scheme = strL "https") then false
  else
    let path := pyLower url.path
    if path = [] ∨ path = strL "/" then false
    else if (strL "/index.html" <:+ path) ∨ (strL "/index" <:+ path) then false
    else if ¬ (strL ".html" <:+ path) then false
    else true

/-- Model of `_generate_unique_filename` (scraper.py lines 654-681): take the
last `/`-separated segment of the path, strip a trailing `.html`, and fall
back to `article` when empty. -/
def _generate_unique_filename (url : UrlRec) : PyStr :=
  let filename := (pySplit '/' url.path).getLastD []
  let filename :=
    if strL ".html" <:+ filename then filename.take (filename.length - 5) else filename
  if filename = [] then strL "article" else filename

/-- The region computed by `_save_article_batch` / `_get_output_files_for_url`
(scraper.py lines 696-705 and 780-786): the path segment after
`places-to-go` when the first non-empty segment is `places-to-go` and there
are at least two non-empty segments. -/
def derive_region (url : UrlRec) : Option PyStr :=
  let path_parts := (pySplit '/' url.path).filter (fun p => p ≠ [])
  if 2 ≤ path_parts.length ∧ path_parts.headD [] = strL "places-to-go" then
    some (path_parts.getD 1 [])
  else none

/-- Model of `_get_output_files_for_url` (scraper.py lines 769-797): the
json/md/html output paths under the output directory, inside the region
subdirectory when a region is derived. -/
def _get_output_files_for_url (output_dir : PyStr) (url : UrlRec) (base_name : PyStr) :
    PyStr × PyStr × PyStr :=
  let output_subdir :=
    match derive_region url with
    | some region => output_dir ++ strL "/" ++ region
    | none => output_dir
  (output_subdir ++ strL "/" ++ base_name ++ strL ".json",
   output_subdir ++ strL "/" ++ base_name ++ strL ".md",
   output_subdir ++ strL "/" ++ base_name ++ strL ".html")

/-- One entry of the list returned by `scrape_batch`: the result dict built
by `_scrape_single_article_in_batch` (scraper.py lines 622-628).  An empty
`file_paths` dict is modelled as the empty association list. -/
structure BatchResult where
  url : UrlRec
  success : Bool
  files : List PyStr
  error : Option PyStr
  file_paths : List (PyStr × PyStr)
deriving DecidableEq, Repr

/-- Model of `_scrape_single_article_in_batch` (scraper.py lines 611-652).
The navigate/scrape/save pipeline for one URL is abstracted as `scrape`,
which either returns the saved file paths or raises with a message
(`Except`); the `try`/`except` at the item boundary converts a raise into a
failed result dict and never re-raises. -/
def _scrape_single_article_in_batch (scrape : UrlRec → Except PyStr (List (PyStr × PyStr)))
    (url : UrlRec) : BatchResult :=
  match scrape url with
  | .ok saved_files =>
      ⟨url, true, [strL "json", strL "html", strL "markdown"], none, saved_files⟩
  | .error e => ⟨url, false, [], some e, []⟩

/-- Model of the per-URL loop of `scrape_batch` (scraper.py lines 594-604):
every URL of `valid_urls` is processed in order and its result appended;
the loop itself cannot raise for a per-item failure. -/
def scrape_batch_loop (scrape : UrlRec → Except PyStr (List (PyStr × PyStr)))
    (valid_urls : List UrlRec) : List BatchResult :=
  valid_urls.map (_scrape_single_article_in_batch scrape)

/-- Model of the candidate-selection steps of `scrape_batch` (scraper.py
lines 538-545): truncate when `max_articles` is truthy (Python `if
max_articles:` — `None` and `0` both skip truncation), then re-validate. -/
def scrape_batch_candidates (urls : List UrlRec) (max_articles : Option Nat) :
    List UrlRec :=
  let urls :=
    match max_articles with
    | some n => if n ≠ 0 then urls.take n else urls
    | none => urls
  urls.filter (fun u => _is_valid_article_url u)

/-- The keyword parameters accepted by `HemispheresScraper.scrape_batch`,
from its `def` line (scraper.py line 524). -/
def scrape_batch_keywords : List PyStr :=
  [strL "listing_url", strL "max_articles", strL "progress_callback"]

/-- The keyword arguments `main.scrape_single_place` passes to
`scraper.scrape_batch` (main.py lines 103-110). -/
def scrape_single_place_call_keywords : List PyStr :=
  [strL "max_articles", strL "progress_callback", strL "place_slug"]

/-- The `place_slug` argument `scrape_batch` hands to
`ListingCrawler.get_article_urls` (scraper.py line 540 passes only
`listing_url`, so the parameter takes its default `None`). -/
def scrape_batch_discovery_place_slug : Option PyStr := none

end HemispheresScraper

/-- Fixture: the URL of the C9 scenario, path
`/places-to-go/africa/morocco/marrakesh-solo-travel.html`. -/
def c9Url : UrlRec :=
  ⟨strL "https", strL "www.united.com",
   strL "/places-to-go/africa/morocco/marrakesh-solo-travel.html", [], []⟩

/-- C9: filename and region derivation are pure functions of the URL; for the
path `/places-to-go/africa/morocco/marrakesh-solo-travel.html` the region is
`africa`, the slug is `marrakesh-solo-travel`, and the three output paths are
`africa/marrakesh-solo-travel.{json,md,html}` under the output directory. -/
theorem filename_region_derivation_c9 (output_dir : PyStr) :
    HemispheresScraper.derive_region c9Url = some (strL "africa") ∧
    HemispheresScraper._generate_unique_filename c9Url = strL "marrakesh-solo-travel" ∧
    HemispheresScraper._get_output_files_for_url output_dir c9Url
        (HemispheresScraper._generate_unique_filename c9Url) =
      (output_dir ++ strL "/africa/marrakesh-solo-travel.json",
       output_dir ++ strL "/africa/marrakesh-solo-travel.md",
       output_dir ++ strL "/africa/marrakesh-solo-travel.html") := by
  refine ⟨by decide, by decide, ?_⟩
  have h1 : HemispheresScraper.derive_region c9Url = some (strL "africa") := by decide
  have h2 : HemispheresScraper._generate_unique_filename c9Url =
      strL "marrakesh-solo-travel" := by decide
  simp only [HemispheresScraper._get_output_files_for_url, h1, h2, Prod.mk.injEq]
  simp only [List.append_assoc]
  refine ⟨?_, ?_, ?_⟩ <;> exact congrArg (fun t => output_dir ++ t) (by decide)

/-- C5 (code bug): `main.scrape_single_place` passes the keyword argument
`place_slug` to `scraper.scrape_batch`, but the signature of `scrape_batch` has no
such parameter (a `TypeError` at call time), and the discovery call inside
`scrape_batch` passes no slug at all, so no taxonomy filter is ever applied
at discovery time. -/
theorem scrape_batch_place_slug_c5 :
    strL "place_slug" ∈ HemispheresScraper.scrape_single_place_call_keywords ∧
    strL "place_slug" ∉ HemispheresScraper.scrape_batch_keywords ∧
    HemispheresScraper.scrape_batch_discovery_place_slug = none := by
  decide

/-- C6: a URL whose path contains both `/places-to-go/` and `/things-to-do/`
is rejected by the discovery classifier for every taxonomy-filter value. -/
theorem classifier_exclusivity_c6 (url : UrlRec) (place_slug : Option PyStr)
    (h1 : strL "/places-to-go/" <:+: url.path)
    (h2 : strL "/things-to-do/" <:+: url.path) :
    ListingCrawler._is_valid_article_url url place_slug = false := by
  have hmap : strL "/things-to-do/" <:+: pyLower url.path := by
    obtain ⟨s, t, hst⟩ := h2
    refine ⟨s.map Char.toLower, t.map Char.toLower, ?_⟩
    have hm : (strL "/things-to-do/").map Char.toLower = strL "/things-to-do/" := by decide
    rw [pyLower, ← hst]
    simp [hm]
  simp only [ListingCrawler._is_valid_article_url]
  by_cases hp : strL "/places-to-go/" <:+: pyLower url.path
  · rw [if_neg (not_not_intro hp), if_pos hmap]
  · rw [if_pos hp]

/-- Fixture: a URL whose path carries both the listing-root marker and the
alternate-content-type marker. -/
def c6Url : UrlRec :=
  ⟨strL "https", strL "www.united.com",
   strL "/en/us/hemispheres/places-to-go/things-to-do/fun.html", [], []⟩

/-- Witness for C6 at a concrete URL. -/
theorem classifier_exclusivity_c6_witness :
    (strL "/places-to-go/" <:+: c6Url.path ∧ strL "/things-to-do/" <:+: c6Url.path) ∧
    ListingCrawler._is_valid_article_url c6Url none = false :=
  ⟨by decide, classifier_exclusivity_c6 c6Url none (by decide) (by decide)⟩

/-- Fixture: a URL accepted by the batch-entry validator but rejected by the
discovery classifier (its path lacks `/places-to-go/`). -/
def c8Url : UrlRec := ⟨strL "https", strL "example.com", strL "/foo.html", [], []⟩

/-- Counterexample for C8: the batch-entry validator and the discovery
classifier disagree on a concrete URL, so they are not the same predicate. -/
theorem validators_differ_c8 :
    HemispheresScraper._is_valid_article_url c8Url = true ∧
    ListingCrawler._is_valid_article_url c8Url none = false := by
  decide

/-- C8 (amended): with no taxonomy filter, every URL accepted by the
discovery classifier that has an http or https scheme is also accepted by
the batch-entry validator; the converse fails (`validators_differ_c8`), since
the batch-entry validator omits the `/places-to-go/` and `/things-to-do/`
marker checks and instead checks the scheme and path non-emptiness. -/
theorem crawler_valid_implies_scraper_valid_c8 (url : UrlRec)
    (hscheme : url.scheme = strL "http" ∨ url.scheme = strL "https")
    (hvalid : ListingCrawler._is_valid_article_url url none = true) :
    HemispheresScraper._is_valid_article_url url = true := by
  simp only [ListingCrawler._is_valid_article_url] at hvalid
  split_ifs at hvalid with hp ht hdum hidx hhtml
  all_goals
    first
    | exact absurd hvalid Bool.false_ne_true
    | (have hlen : (strL "/places-to-go/").length ≤ (pyLower url.path).length :=
         List.IsInfix.length_le hp
       have hlen14 : 14 ≤ (pyLower url.path).length := by
         have : (strL "/places-to-go/").length = 14 := by decide
         omega
       simp only [HemispheresScraper._is_valid_article_url]
       rw [if_neg (not_not_intro hscheme)]
       have hne : ¬ (pyLower url.path = [] ∨ pyLower url.path = strL "/") := by
         rintro (he | hs)
         · rw [he] at hlen14; simp at hlen14
         · rw [hs] at hlen14; revert hlen14; decide
       rw [if_neg hne, if_neg hidx, if_neg (not_not_intro hhtml)])

/-- Fixture: a URL that passes both validators. -/
def c8wUrl : UrlRec :=
  ⟨strL "https", strL "www.united.com", strL "/places-to-go/africa/a.html", [], []⟩

/-- Witness for the amended C8 at a concrete URL. -/
theorem crawler_valid_implies_scraper_valid_c8_witness :
    (c8wUrl.scheme = strL "http" ∨ c8wUrl.scheme = strL "https") ∧
    ListingCrawler._is_valid_article_url c8wUrl none = true ∧
    HemispheresScraper._is_valid_article_url c8wUrl = true :=
  ⟨by decide, by decide,
   crawler_valid_implies_scraper_valid_c8 c8wUrl (by decide) (by decide)⟩

/-- C2: in the batch loop, a raise while scraping the k-th candidate URL is
caught at the item boundary and recorded as a failed `BatchResult` carrying
the error message; every other candidate is still processed, every outcome
sits at its original index, and the loop is a total function into result
records (modelled without any exception channel), so no per-item exception
escapes `scrape_batch`. -/
theorem scrape_batch_isolation_c2
    (scrape : UrlRec → Except PyStr (List (PyStr × PyStr)))
    (valid_urls : List UrlRec) (k : Nat) (hk : k < valid_urls.length) (e : PyStr)
    (he : scrape (valid_urls.get ⟨k, hk⟩) = .error e) :
    (HemispheresScraper.scrape_batch_loop scrape valid_urls).length = valid_urls.length ∧
    (HemispheresScraper.scrape_batch_loop scrape valid_urls).get
        ⟨k, by simpa [HemispheresScraper.scrape_batch_loop] using hk⟩ =
      ⟨valid_urls.get ⟨k, hk⟩, false, [], some e, []⟩ ∧
    ∀ j (hj : j < valid_urls.length),
      (HemispheresScraper.scrape_batch_loop scrape valid_urls).get
          ⟨j, by simpa [HemispheresScraper.scrape_batch_loop] using hj⟩ =
        HemispheresScraper._scrape_single_article_in_batch scrape (valid_urls.get ⟨j, hj⟩) := by
  have he2 : scrape valid_urls[k] = Except.error e := by simpa using he
  refine ⟨by simp [HemispheresScraper.scrape_batch_loop], ?_, ?_⟩
  · simp only [HemispheresScraper.scrape_batch_loop, List.get_eq_getElem,
      List.getElem_map, HemispheresScraper._scrape_single_article_in_batch, he2]
  · intro j hj
    simp only [HemispheresScraper.scrape_batch_loop, List.get_eq_getElem,
      List.getElem_map]

/-- Fixture: three candidate URLs for the C2 witness. -/
def c2Urls : List UrlRec :=
  [⟨strL "https", strL "www.united.com", strL "/places-to-go/africa/a.html", [], []⟩,
   ⟨strL "https", strL "www.united.com", strL "/places-to-go/africa/b.html", [], []⟩,
   ⟨strL "https", strL "www.united.com", strL "/places-to-go/africa/c.html", [], []⟩]

/-- Fixture: a scrape that raises exactly on the second candidate. -/
def c2Scrape (u : UrlRec) : Except PyStr (List (PyStr × PyStr)) :=
  if u.path = strL "/places-to-go/africa/b.html" then
    Except.error (strL "Timeout 60000ms exceeded")
  else Except.ok [(strL "json", strL "output/africa/out.json")]

/-- Witness for C2 at a concrete batch where item 1 raises. -/
theorem scrape_batch_isolation_c2_witness :
    (HemispheresScraper.scrape_batch_loop c2Scrape c2Urls).length = c2Urls.length ∧
    (HemispheresScraper.scrape_batch_loop c2Scrape c2Urls).get ⟨1, by decide⟩ =
      ⟨c2Urls.get ⟨1, by decide⟩, false, [], some (strL "Timeout 60000ms exceeded"), []⟩ :=
  ⟨(scrape_batch_isolation_c2 c2Scrape c2Urls 1 (by decide)
      (strL "Timeout 60000ms exceeded") rfl).1,
   (scrape_batch_isolation_c2 c2Scrape c2Urls 1 (by decide)
      (strL "Timeout 60000ms exceeded") rfl).2.1⟩

namespace ListingCrawler

/-- The attempt counter never decreases below its starting value. -/
theorem loadLoop_attempts_ge {α : Type} [DecidableEq α] (ext1 : Nat → Finset α)
    (clk : Nat → Bool) (ext2 : Nat → Finset α) :
    ∀ (fuel i : Nat) (acc : Finset α), i ≤ (loadLoop ext1 clk ext2 fuel i acc).attempts := by
  intro fuel
  induction fuel with
  | zero => intro i acc; exact Nat.le_refl i
  | succ n ih =>
    intro i acc
    simp only [loadLoop]
    split
    · exact Nat.le_refl i
    · split
      · exact Nat.le_refl i
      · exact Nat.le_trans (Nat.le_succ i) (ih (i + 1) _)

/-- Running the loop from iteration `i` with the accumulator it would hold
there: when every remaining iteration clicks successfully and extracts
strictly more links than the pre-attempt count, the loop consumes all its
fuel and stops at the ceiling. -/
theorem loadLoop_ceiling {α : Type} [DecidableEq α] (ext1 : Nat → Finset α)
    (clk : Nat → Bool) (ext2 : Nat → Finset α) :
    ∀ (fuel i : Nat),
      (∀ j, i ≤ j → j < i + fuel →
        clk j = true ∧ (accUpTo ext1 j).card < (ext2 j).card) →
      loadLoop ext1 clk ext2 fuel i (accUpTo ext1 i) =
        ⟨accUpTo ext1 (i + fuel), i + fuel, .ceiling⟩ := by
  intro fuel
  induction fuel with
  | zero => intro i _; simp [loadLoop]
  | succ n ih =>
    intro i h
    have hi := h i (Nat.le_refl i) (by omega)
    simp only [loadLoop]
    rw [if_neg (by simp [hi.1]), if_neg (by simpa using Nat.not_le_of_lt hi.2)]
    have hacc : accUpTo ext1 i ∪ ext1 i = accUpTo ext1 (i + 1) := rfl
    rw [hacc, ih (i + 1) (fun j hj1 hj2 => h j (by omega) (by omega))]
    have : i + 1 + n = i + (n + 1) := by omega
    rw [this]

/-- C3: when every simulated reveal click succeeds and every post-click
extraction yields strictly more links than the count held before the
attempt, `_load_all_articles` stops exactly when the attempt counter reaches
`max_attempts = 50`, returning the accumulated URL set normally (the
`ceiling` stop is an ordinary loop exit, not an exception). -/
theorem load_all_articles_ceiling_c3 {α : Type} [DecidableEq α]
    (ext1 : Nat → Finset α) (clk : Nat → Bool) (ext2 : Nat → Finset α)
    (h : ∀ j, j < max_attempts →
      clk j = true ∧ (accUpTo ext1 j).card < (ext2 j).card) :
    _load_all_articles ext1 clk ext2 =
      ⟨accUpTo ext1 max_attempts, max_attempts, .ceiling⟩ := by
  have h0 : accUpTo ext1 0 = (∅ : Finset α) := rfl
  have := loadLoop_ceiling ext1 clk ext2 max_attempts 0
    (fun j hj1 hj2 => h j (by omega))
  rw [_load_all_articles, ← h0, this]
  simp

/-- Fixture for the C3 witness: iteration `j` first extracts the singleton
set `{j}` and the post-click extraction shows `j + 1` links, so every reveal
strictly grows the accumulator. -/
def c3Ext1 (j : Nat) : Finset Nat := {j}

/-- Fixture: the reveal click always succeeds. -/
def c3Clk (_ : Nat) : Bool := true

/-- Fixture: the post-click extraction at iteration `j`. -/
def c3Ext2 (j : Nat) : Finset Nat := Finset.range (j + 1)

/-- Witness for C3 on a concrete always-growing outcome sequence. -/
theorem load_all_articles_ceiling_c3_witness :
    _load_all_articles c3Ext1 c3Clk c3Ext2 =
      ⟨accUpTo c3Ext1 max_attempts, max_attempts, .ceiling⟩ :=
  load_all_articles_ceiling_c3 c3Ext1 c3Clk c3Ext2 (by decide)

end ListingCrawler

namespace ListingCrawler

/-- C4: at any reveal-loop iteration where the click succeeded, the loop
stops — with the `noNewContent` outcome, an ordinary return of the
accumulated set, not an exception — exactly when the freshly extracted link
count is not strictly greater than the count held before this reveal
attempt; when it is strictly greater, the loop goes on to another extract
cycle. -/
theorem reveal_stop_iff_c4 {α : Type} [DecidableEq α] (ext1 : Nat → Finset α)
    (clk : Nat → Bool) (ext2 : Nat → Finset α) (fuel i : Nat) (acc : Finset α)
    (hclk : clk i = true) :
    ((loadLoop ext1 clk ext2 (fuel + 1) i acc =
        ⟨acc ∪ ext1 i, i, .noNewContent⟩) ↔ (ext2 i).card ≤ acc.card) ∧
    (acc.card < (ext2 i).card →
      loadLoop ext1 clk ext2 (fuel + 1) i acc =
        loadLoop ext1 clk ext2 fuel (i + 1) (acc ∪ ext1 i)) := by
  have hrec : ¬ (ext2 i).card ≤ acc.card →
      loadLoop ext1 clk ext2 (fuel + 1) i acc =
        loadLoop ext1 clk ext2 fuel (i + 1) (acc ∪ ext1 i) := by
    intro hgt
    simp only [loadLoop]
    rw [if_neg (by simp [hclk]), if_neg hgt]
  constructor
  · constructor
    · intro hstop
      by_contra hgt
      rw [hrec hgt] at hstop
      have hge := loadLoop_attempts_ge ext1 clk ext2 fuel (i + 1) (acc ∪ ext1 i)
      rw [hstop] at hge
      simp at hge
    · intro hle
      simp only [loadLoop]
      rw [if_neg (by simp [hclk]), if_pos hle]
  · intro hlt
    exact hrec (Nat.not_le_of_lt hlt)

/-- Fixture for the C4 witness: iteration `j` extracts the singleton `{j}`. -/
def c4Ext1 (j : Nat) : Finset Nat := {j}

/-- Fixture: the reveal click always succeeds. -/
def c4Clk (_ : Nat) : Bool := true

/-- Fixture: the post-click extraction never shows any link. -/
def c4Ext2 (_ : Nat) : Finset Nat := ∅

/-- Witness for C4 at a concrete iteration. -/
theorem reveal_stop_iff_c4_witness :
    c4Clk 0 = true ∧
    ((loadLoop c4Ext1 c4Clk c4Ext2 3 0 ∅ = ⟨∅ ∪ c4Ext1 0, 0, .noNewContent⟩) ↔
      (c4Ext2 0).card ≤ (∅ : Finset Nat).card) :=
  ⟨rfl, (reveal_stop_iff_c4 c4Ext1 c4Clk c4Ext2 2 0 ∅ rfl).1⟩

end ListingCrawler

/-- The normalized string of a URL is a function of its
scheme/netloc/path triple alone. -/
theorem normalizeStr_eq_of_snp {u v : UrlRec} (h : snp u = snp v) :
    normalizeStr u = normalizeStr v := by
  simp only [snp, Prod.mk.injEq] at h
  simp [normalizeStr, h.1, h.2.1, h.2.2]

/-- The accumulate-if-unseen fold of `_extract_article_links` preserves
freedom from duplicates. -/
theorem extract_links_fold_nodup (base : UrlRec) :
    ∀ (hrefs : List UrlRec) (acc : List PyStr), acc.Nodup →
      (hrefs.foldl
        (fun links h =>
          let normalized := normalizeStr (urljoinRec base h)
          if normalized ∈ links then links else links ++ [normalized]) acc).Nodup := by
  intro hrefs
  induction hrefs with
  | nil => intro acc h; simpa using h
  | cons a rest ih =>
    intro acc h
    simp only [List.foldl_cons]
    apply ih
    dsimp only
    by_cases hm : normalizeStr (urljoinRec base a) ∈ acc
    · simpa [hm] using h
    · rw [if_neg hm]
      simp [List.nodup_append, h, hm]

/-- C7: two raw hrefs whose resolutions against the page URL name the same
resource (same scheme, host and path — e.g. absolute vs relative forms, or
forms differing only by fragment or trailing query) normalize to one
identical candidate URL; feeding both through the extraction loop yields a
single accumulated entry, and the extraction loop never accumulates
duplicates. -/
theorem normalize_dedup_c7 (base hr1 hr2 : UrlRec) (hrefs : List UrlRec)
    (hjoin : snp (urljoinRec base hr1) = snp (urljoinRec base hr2)) :
    normalizeStr (urljoinRec base hr1) = normalizeStr (urljoinRec base hr2) ∧
    ListingCrawler._extract_article_links base [hr1, hr2] =
      [normalizeStr (urljoinRec base hr1)] ∧
    (ListingCrawler._extract_article_links base hrefs).Nodup := by
  have heq := normalizeStr_eq_of_snp hjoin
  refine ⟨heq, ?_, ?_⟩
  · simp [ListingCrawler._extract_article_links, heq]
  · exact extract_links_fold_nodup base hrefs [] (by simp)

/-- Fixture: the parsed listing-page URL used as the join base. -/
def c7Base : UrlRec :=
  ⟨strL "https", strL "www.united.com",
   strL "/en/us/hemispheres/places-to-go/africa/index.html", [], []⟩

/-- Fixture: an absolute href carrying a fragment. -/
def c7Href1 : UrlRec :=
  ⟨strL "https", strL "www.united.com",
   strL "/en/us/hemispheres/places-to-go/africa/morocco/marrakesh-solo-travel.html",
   [], strL "top"⟩

/-- Fixture: a relative href carrying a query, resolving to the same
resource as `c7Href1`. -/
def c7Href2 : UrlRec :=
  ⟨[], [], strL "morocco/marrakesh-solo-travel.html", strL "ref=1", []⟩

/-- Witness for C7: an absolute-with-fragment and a relative-with-query href
resolve to the same resource and collapse to one normalized entry. -/
theorem normalize_dedup_c7_witness :
    snp (urljoinRec c7Base c7Href1) = snp (urljoinRec c7Base c7Href2) ∧
    normalizeStr (urljoinRec c7Base c7Href1) = normalizeStr (urljoinRec c7Base c7Href2) ∧
    ListingCrawler._extract_article_links c7Base [c7Href1, c7Href2] =
      [normalizeStr (urljoinRec c7Base c7Href1)] ∧
    (ListingCrawler._extract_article_links c7Base [c7Href1, c7Href2]).Nodup :=
  ⟨by decide,
   (normalize_dedup_c7 c7Base c7Href1 c7Href2 [c7Href1, c7Href2] (by decide)).1,
   (normalize_dedup_c7 c7Base c7Href1 c7Href2 [c7Href1, c7Href2] (by decide)).2.1,
   (normalize_dedup_c7 c7Base c7Href1 c7Href2 [c7Href1, c7Href2] (by decide)).2.2⟩

namespace ListingCrawler

/-- Looking up the just-inserted key returns the just-inserted value. -/
theorem dictFind_dictInsert_self (d : List (UrlRec × PStatus)) (k : UrlRec) (v : PStatus) :
    dictFind (dictInsert d k v) k = some v := by
  induction d with
  | nil => simp [dictInsert, dictFind]
  | cons p rest ih =>
    obtain ⟨k2, v2⟩ := p
    by_cases h : k2 = k
    · simp [dictInsert, h, dictFind]
    · simp [dictInsert, h, dictFind, ih]

/-- Inserting one key leaves the binding of every other key unchanged. -/
theorem dictFind_dictInsert_ne (d : List (UrlRec × PStatus)) (k : UrlRec) (v : PStatus)
    (q : UrlRec) (hne : q ≠ k) : dictFind (dictInsert d k v) q = dictFind d q := by
  induction d with
  | nil =>
    simp only [dictInsert, dictFind]
    rw [if_neg (fun hh : k = q => hne hh.symm)]
  | cons p rest ih =>
    obtain ⟨k2, v2⟩ := p
    simp only [dictInsert]
    by_cases h : k2 = k
    · rw [if_pos h]
      simp only [dictFind]
      rw [if_neg (fun hh : k = q => hne hh.symm),
          if_neg (fun hh : k2 = q => hne (hh.symm.trans h))]
    · rw [if_neg h]
      simp only [dictFind]
      by_cases h2 : k2 = q
      · rw [if_pos h2, if_pos h2]
      · rw [if_neg h2, if_neg h2, ih]

/-- A key is bound after an insert exactly when it was bound before or is the
inserted key. -/
theorem dictFind_dictInsert_isSome (d : List (UrlRec × PStatus)) (k : UrlRec) (v : PStatus)
    (q : UrlRec) :
    (dictFind (dictInsert d k v) q).isSome ↔ ((dictFind d q).isSome ∨ q = k) := by
  by_cases hq : q = k
  · subst hq
    simp [dictFind_dictInsert_self]
  · simp [dictFind_dictInsert_ne d k v q hq, hq]

/-- After folding `pending` insertions over a URL list, every URL that was
already bound to `pending` or occurs in the list is bound to `pending`. -/
theorem dictFind_fold_pending (l : List UrlRec) :
    ∀ (d : List (UrlRec × PStatus)) (u : UrlRec),
      (dictFind d u = some PStatus.pending ∨ u ∈ l) →
      dictFind (l.foldl (fun d2 u2 => dictInsert d2 u2 PStatus.pending) d) u =
        some PStatus.pending := by
  induction l with
  | nil => intro d u h; simpa using h.resolve_right (by simp)
  | cons a rest ih =>
    intro d u h
    simp only [List.foldl_cons]
    apply ih
    by_cases hua : u = a
    · subst hua
      exact Or.inl (dictFind_dictInsert_self d u PStatus.pending)
    · rcases h with hfind | hmem
      · exact Or.inl ((dictFind_dictInsert_ne d a PStatus.pending u hua).trans hfind)
      · exact Or.inr (by simpa [hua] using hmem)

/-- After folding `pending` insertions over a URL list, the bound keys are
the previously bound keys together with the members of the list. -/
theorem dictFind_fold_isSome (l : List UrlRec) :
    ∀ (d : List (UrlRec × PStatus)) (u : UrlRec),
      (dictFind (l.foldl (fun d2 u2 => dictInsert d2 u2 PStatus.pending) d) u).isSome ↔
        ((dictFind d u).isSome ∨ u ∈ l) := by
  induction l with
  | nil => intro d u; simp
  | cons a rest ih =>
    intro d u
    simp only [List.foldl_cons, ih, dictFind_dictInsert_isSome, List.mem_cons]
    tauto

/-- C10 (amended): after a `crawl_listing` run, every valid URL of that run
is bound to `pending` in `processed`; but `processed` is not rebuilt — its
bound keys are the union of the keys bound before the run and the valid URLs of the run, so entries from earlier runs on the same crawler carry over
(the state dict is created once in `__init__` and `crawl_listing` only adds
to `processed`). -/
theorem crawl_listing_processed_c10 (st : ListingState) (listing_url : PyStr)
    (all_urls : List UrlRec) (place_slug : Option PyStr) :
    (∀ u ∈ (crawl_listing st listing_url all_urls place_slug).valid_urls,
      dictFind (crawl_listing st listing_url all_urls place_slug).processed u =
        some PStatus.pending) ∧
    (∀ u,
      (dictFind (crawl_listing st listing_url all_urls place_slug).processed u).isSome ↔
        ((dictFind st.processed u).isSome ∨
          u ∈ (crawl_listing st listing_url all_urls place_slug).valid_urls)) := by
  simp only [crawl_listing]
  constructor
  · intro u hu
    exact dictFind_fold_pending _ _ _ (Or.inr hu)
  · intro u
    exact dictFind_fold_isSome _ _ _

/-- Fixture: a valid article URL discovered by a first crawl. -/
def c10UrlA : UrlRec :=
  ⟨strL "https", strL "www.united.com", strL "/places-to-go/africa/a.html", [], []⟩

/-- Fixture: a valid article URL discovered by a second crawl. -/
def c10UrlB : UrlRec :=
  ⟨strL "https", strL "www.united.com", strL "/places-to-go/asia/b.html", [], []⟩

/-- Fixture: the crawler state after two successive discovery runs on the
same crawler instance. -/
def c10Run2 : ListingState :=
  crawl_listing
    (crawl_listing init_state (strL "https://www.united.com/a/index.html") [c10UrlA] none)
    (strL "https://www.united.com/b/index.html") [c10UrlB] none

/-- Counterexample for C10: after the second discovery run the `processed`
map still holds the URL of the first run, so it does not contain exactly one
entry per valid URL of that run. -/
theorem crawl_listing_carryover_c10 :
    c10Run2.valid_urls = [c10UrlB] ∧
    c10Run2.processed = [(c10UrlA, PStatus.pending), (c10UrlB, PStatus.pending)] ∧
    ¬ (∀ kv ∈ c10Run2.processed, kv.1 ∈ c10Run2.valid_urls) := by
  decide

/-- Witness for the amended C10 on the concrete two-run scenario. -/
theorem crawl_listing_processed_c10_witness :
    (∀ u ∈ c10Run2.valid_urls, dictFind c10Run2.processed u = some PStatus.pending) ∧
    (∀ u,
      (dictFind c10Run2.processed u).isSome ↔
        ((dictFind (crawl_listing init_state
            (strL "https://www.united.com/a/index.html") [c10UrlA] none).processed u).isSome ∨
          u ∈ c10Run2.valid_urls)) :=
  crawl_listing_processed_c10
    (crawl_listing init_state (strL "https://www.united.com/a/index.html") [c10UrlA] none)
    (strL "https://www.united.com/b/index.html") [c10UrlB] none

end ListingCrawler

namespace ListingCrawler

/-- Fixture: a valid article URL, first extracted before `c1UrlB`. -/
def c1UrlA : UrlRec :=
  ⟨strL "https", strL "www.united.com", strL "/places-to-go/africa/a.html", [], []⟩

/-- Fixture: a valid article URL, first extracted after `c1UrlA`. -/
def c1UrlB : UrlRec :=
  ⟨strL "https", strL "www.united.com", strL "/places-to-go/africa/b.html", [], []⟩

/-- Counterexample for C1: `_load_all_articles` accumulates URLs in a Python
`set` and `crawl_listing` consumes `list(set)`, whose iteration order is
unspecified (string hashing is seed-randomized).  For the discovery run that
first extracts `c1UrlA` then `c1UrlB` (both valid), the reversed listing is
an admissible `list(set)` value, and on it `get_article_urls` returns the
URLs out of first-extraction order — refuting the claimed positional
guarantee at a concrete input. -/
theorem get_article_urls_order_c1 :
    pySetListing [c1UrlB, c1UrlA] [c1UrlA, c1UrlB] ∧
    List.filter (fun u => _is_valid_article_url u none) [c1UrlA, c1UrlB] =
      [c1UrlA, c1UrlB] ∧
    get_article_urls (strL "https://www.united.com/x/index.html") [c1UrlB, c1UrlA] none =
      [c1UrlB, c1UrlA] ∧
    [c1UrlB, c1UrlA] ≠ [c1UrlA, c1UrlB] := by
  refine ⟨⟨by decide, ?_⟩, by decide, by decide, by decide⟩
  intro u
  simp only [List.mem_cons, List.not_mem_nil, or_false]
  tauto

/-- C1 (amended): for every admissible enumeration of the accumulated set,
`get_article_urls` returns each discovered URL that satisfies the article
predicate exactly once (duplicates removed) and nothing else; the order,
however, is the set-enumeration order, which need not be first-extraction
order (`get_article_urls_order_c1`). -/
theorem get_article_urls_members_c1 (listing_url : PyStr) (disc enum : List UrlRec)
    (place_slug : Option PyStr) (hset : pySetListing enum disc) :
    (get_article_urls listing_url enum place_slug).Nodup ∧
    ∀ u, u ∈ get_article_urls listing_url enum place_slug ↔
      (u ∈ disc ∧ _is_valid_article_url u place_slug = true) := by
  obtain ⟨hnd, hmem⟩ := hset
  have hval : get_article_urls listing_url enum place_slug =
      enum.filter (fun u => _is_valid_article_url u place_slug) := by
    simp [get_article_urls, crawl_listing, List.partition_eq_filter_filter]
  rw [hval]
  refine ⟨hnd.filter _, ?_⟩
  intro u
  simp [List.mem_filter, hmem u]

/-- Witness for the amended C1 on the concrete two-URL run. -/
theorem get_article_urls_members_c1_witness :
    pySetListing [c1UrlB, c1UrlA] [c1UrlA, c1UrlB] ∧
    ((get_article_urls (strL "https://www.united.com/x/index.html")
        [c1UrlB, c1UrlA] none).Nodup ∧
      ∀ u, u ∈ get_article_urls (strL "https://www.united.com/x/index.html")
          [c1UrlB, c1UrlA] none ↔
        (u ∈ [c1UrlA, c1UrlB] ∧ _is_valid_article_url u none = true)) :=
  have hset : pySetListing [c1UrlB, c1UrlA] [c1UrlA, c1UrlB] :=
    ⟨by decide, fun u => by
      simp only [List.mem_cons, List.not_mem_nil, or_false]
      tauto⟩
  ⟨hset, get_article_urls_members_c1
    (strL "https://www.united.com/x/index.html") [c1UrlA, c1UrlB] [c1UrlB, c1UrlA]
    none hset⟩

end ListingCrawler
